import Mathlib

/-!
Verification of fsftosh.py, a converter from an FSF parameter file to a shell
script of FSL/POSSUM commands.  The Python source is shallowly embedded:
the parameter dictionary is an association list with unique keys, Python
floats are modelled as exact rationals, and each generated shell command is
modelled as a structured command descriptor whose fields are exactly the
values interpolated into the corresponding command string, in order.
-/

namespace FS

/-- Parameter dictionary: association list with unique keys, as a Python dict. -/
abbrev Params := List (String × String)

/-- Dictionary lookup, as Python dict access. -/
def dlookup : Params → String → Option String
  | [], _ => none
  | (k0, v0) :: rest, k => if k0 = k then some v0 else dlookup rest k

/-- Dictionary update, as the Python assignment d[k] = v: replaces the value
of an existing key in place, otherwise appends a new entry. -/
def insertKV : Params → String → String → Params
  | [], k, v => [(k, v)]
  | (k0, v0) :: rest, k, v =>
      if k0 = k then (k0, v) :: rest else (k0, v0) :: insertKV rest k v

/-- params.get(k, d): lookup with a default. -/
def dget (m : Params) (k d : String) : String := (dlookup m k).getD d

/-- ASCII whitespace, as matched by the regex class \s and by str.strip. -/
def isPySpace (c : Char) : Bool :=
  c = ' ' || c = '\t' || c = '\n' || c = '\r' || c = '\x0b' || c = '\x0c'

/-- Drop surrounding whitespace from a character list. -/
def stripChars (cs : List Char) : List Char :=
  ((cs.dropWhile isPySpace).reverse.dropWhile isPySpace).reverse

/-- str.strip(): drop surrounding whitespace. -/
def pyStrip (s : String) : String := String.mk (stripChars s.data)

/-- str.lower(), on the ASCII range the parameter values use. -/
def pyLower (s : String) : String := String.mk (s.data.map Char.toLower)

/-- Consume an optional leading sign; true means negative. -/
def parseSign : List Char → Bool × List Char
  | '-' :: cs => (true, cs)
  | '+' :: cs => (false, cs)
  | cs => (false, cs)

/-- Value of a list of decimal digits. -/
def digitsToNat (ds : List Char) : ℕ :=
  ds.foldl (fun a c => a * 10 + (c.toNat - 48)) 0

/-- Models the Python float(s) conversion on the decimal forms it accepts:
optional surrounding whitespace, optional sign, digits with an optional
decimal point and an optional exponent.  Returns none where float() raises
ValueError. -/
def parseFloat (s : String) : Option ℚ :=
  let cs := stripChars s.data
  let sg := parseSign cs
  let ip := (sg.2).span Char.isDigit
  let fr : List Char × List Char :=
    match ip.2 with
    | '.' :: r => r.span Char.isDigit
    | _ => ([], ip.2)
  if ip.1.isEmpty && fr.1.isEmpty then none
  else
    let mant : ℚ := (digitsToNat ip.1 : ℚ) + (digitsToNat fr.1 : ℚ) / (10 : ℚ) ^ fr.1.length
    let signed : ℚ := if sg.1 then -mant else mant
    match fr.2 with
    | [] => some signed
    | e :: r =>
      if e = 'e' || e = 'E' then
        let esg := parseSign r
        let ed := (esg.2).span Char.isDigit
        if ed.1.isEmpty || !ed.2.isEmpty then none
        else
          let ex : ℤ := if esg.1 then -(digitsToNat ed.1 : ℤ) else (digitsToNat ed.1 : ℤ)
          some (signed * (10 : ℚ) ^ ex)
      else none

/-- Models the Python int(s) conversion in base 10. -/
def parseInt (s : String) : Option ℤ :=
  let cs := stripChars s.data
  let sg := parseSign cs
  let ds := (sg.2).span Char.isDigit
  if ds.1.isEmpty || !ds.2.isEmpty then none
  else some (if sg.1 then -(digitsToNat ds.1 : ℤ) else (digitsToNat ds.1 : ℤ))

/-- The Python round builtin on a real value: nearest integer, ties to even. -/
def pyRound (q : ℚ) : ℤ :=
  let f := ⌊q⌋
  let r := q - (f : ℚ)
  if r < 1/2 then f
  else if 1/2 < r then f + 1
  else if f % 2 = 0 then f else f + 1

/-- The Python int(x) truncation of a real value toward zero. -/
def pyTrunc (q : ℚ) : ℤ := if 0 ≤ q then ⌊q⌋ else ⌈q⌉

/-- Models int(params.get(k, str(int(d)))) from compute_brain_ref: when the
key is present its raw string goes through int(), otherwise the already
parsed default value d is truncated (int of a float, round-tripped through
str, is its truncation). -/
def getIntOr (p : Params) (k : String) (d : ℚ) : Option ℤ :=
  match dlookup p k with
  | some s => parseInt s
  | none => some (pyTrunc d)

/-- The tuple returned by compute_brain_ref:
(newdim1, newdim2, newdim3, inNt, newpixdim1, newpixdim2, newpixdim3, pixdim4).
Dimensions are rationals because the Python value is the float input
dimension on the pass-through axes and the int result of round on the
recomputed axis. -/
structure Geo where
  newdim1 : ℚ
  newdim2 : ℚ
  newdim3 : ℚ
  inNt : String
  newpixdim1 : ℚ
  newpixdim2 : ℚ
  newpixdim3 : ℚ
  pixdim4 : String
deriving DecidableEq

/-- The axis-selection branch of compute_brain_ref (source lines 82-96):
start from the pass-through values, then recompute the one selected axis.
Returns none where the Python float division raises ZeroDivisionError. -/
def selectAxis (slcselect : String) (inNx inNy inNz : ℚ) (inNt : String)
    (vcX vcY vcZ outsize_dx outsize_dy outsize_dz slcsampfactor : ℚ)
    (pixdim4 : String) : Option Geo :=
  if pyLower slcselect = "x" then
    if slcsampfactor = 0 then none
    else
      let np1 := outsize_dx / slcsampfactor
      if np1 = 0 then none
      else some ⟨((pyRound (inNx * vcX / np1) : ℤ) : ℚ), inNy, inNz, inNt, np1, vcY, vcZ, pixdim4⟩
  else if pyLower slcselect = "y" then
    if slcsampfactor = 0 then none
    else
      let np2 := outsize_dy / slcsampfactor
      if np2 = 0 then none
      else some ⟨inNx, ((pyRound (inNy * vcY / np2) : ℤ) : ℚ), inNz, inNt, vcX, np2, vcZ, pixdim4⟩
  else
    if slcsampfactor = 0 then none
    else
      let np3 := outsize_dz / slcsampfactor
      if np3 = 0 then none
      else some ⟨inNx, inNy, ((pyRound (inNz * vcZ / np3) : ℤ) : ℚ), inNt, vcX, vcY, np3, pixdim4⟩

/-- compute_brain_ref from fsftosh.py.  Returns none where the Python code
raises (malformed numeric strings, division by zero). -/
def compute_brain_ref (params : Params) : Option Geo := do
  let inNx ← parseFloat (dget params "inNx" "0")
  let inNy ← parseFloat (dget params "inNy" "0")
  let inNz ← parseFloat (dget params "inNz" "0")
  let inNt := dget params "inNt" "1"
  let vcX ← parseFloat (dget params "vcX" "1")
  let vcY ← parseFloat (dget params "vcY" "1")
  let vcZ ← parseFloat (dget params "vcZ" "1")
  let _outsize_nx ← getIntOr params "outsize_nx" inNx
  let _outsize_ny ← getIntOr params "outsize_ny" inNy
  let _outsize_nz ← getIntOr params "outsize_nz" inNz
  let outsize_dx ← parseFloat (dget params "outsize_dx" "1")
  let outsize_dy ← parseFloat (dget params "outsize_dy" "1")
  let outsize_dz ← parseFloat (dget params "outsize_dz" "1")
  let slcsampfactor ← parseFloat (dget params "slcsampfactor" "1")
  let slcselect := dget params "slcselect" "z"
  let pixdim4 := dget params "inNt" "1"
  selectAxis slcselect inNx inNy inNz inNt vcX vcY vcZ
    outsize_dx outsize_dy outsize_dz slcsampfactor pixdim4

/-! ### The FSF parser

parse_fsf scans each line with the regex
set entries\(\$w,([^)]*)\)\s+"([^"]*)" via re.search, and on a match stores
group(1).strip() -> group(2).strip() into the dictionary. -/

/-- Match a literal character-list prefix, returning the remainder. -/
def dropPrefixL : List Char → List Char → Option (List Char)
  | [], cs => some cs
  | _, [] => none
  | p :: ps, c :: cs => if c = p then dropPrefixL ps cs else none

/-- Consume characters up to (and including) the first occurrence of stop;
returns the characters before it and the remainder after it.  This is the
deterministic behaviour of the greedy classes ([^)]* and [^"]*) followed by
their delimiter. -/
def takeUntil (stop : Char) : List Char → Option (List Char × List Char)
  | [] => none
  | c :: cs =>
      if c = stop then some ([], cs)
      else (takeUntil stop cs).map (fun pr => (c :: pr.1, pr.2))

/-- The literal part of the pattern before the key group. -/
def fsfLit : List Char := ("set entries($w," : String).data

/-- Try to match the whole pattern at the start of the character list,
returning the two raw captured groups: the literal prefix, then the key up
to the closing parenthesis, then at least one whitespace, then the value
between double quotes. -/
def matchAt (cs : List Char) : Option (String × String) :=
  (dropPrefixL fsfLit cs).bind fun r1 =>
    (takeUntil ')' r1).bind fun kr =>
      let sp := kr.2.span isPySpace
      if sp.1.isEmpty then none
      else
        match sp.2 with
        | c2 :: r3 =>
            if c2 = '"' then
              (takeUntil '"' r3).bind fun vr => some (String.mk kr.1, String.mk vr.1)
            else none
        | [] => none

/-- re.search: try the match at every start position, leftmost first. -/
def reSearch : List Char → Option (String × String)
  | [] => none
  | c :: cs =>
      match matchAt (c :: cs) with
      | some kv => some kv
      | none => reSearch cs

/-- One line of parse_fsf: regex search, then str.strip on both groups. -/
def parseLine (line : String) : Option (String × String) :=
  (reSearch line.data).map (fun kv => (pyStrip kv.1, pyStrip kv.2))

/-- The body of the parse_fsf loop for one line. -/
def parseStep (m : Params) (line : String) : Params :=
  match parseLine line with
  | some kv => insertKV m kv.1 kv.2
  | none => m

/-- parse_fsf from fsftosh.py, over the list of lines of the input file. -/
def parse_fsf (lines : List String) : Params := lines.foldl parseStep []

/-! ### The command builder

Each cmds.append in generate_shell_commands becomes one structured command
descriptor whose fields are the values interpolated into the command string,
in order.  Fixed literal text of the command strings (flags, destination
file names, the constant arguments 0 0 0 16 of fslcreatehd, the 0 1 slice
range of fslroi, the 1000000 divisor, the log redirections) is part of the
descriptor shape. -/

/-- The arguments interpolated into the pulse command string.  trslc is the
optional --trslc argument, included only for the epi branch; readdir,
phasedir and slcdir are the gradient directions with the polarity sign
already appended, as the adjacent interpolation slots produce. -/
structure PulseArgs where
  possumdir : String
  out : String
  seqtype : String
  te : String
  tr : String
  trslc : Option String
  nx : String
  ny : String
  numslc : String
  dx : String
  dy : String
  slcthk : ℚ
  numvol : String
  bw : String
  readdir : String
  phasedir : String
  slcdir : String
  maxG : String
  riseT : String
deriving DecidableEq

/-- One shell command of the generated script, as a structured descriptor. -/
inductive Cmd where
  | mkdirP (out : String)
  | fslcreatehd (fsldir : String) (d1 d2 d3 : ℚ) (nt : String) (p1 p2 p3 : ℚ)
      (p4 : String) (dest : String)
  | flirt (fsldir : String) (src : String) (ref : String) (dest : String)
  | cp (src : String) (dest : String)
  | fslroi (fsldir : String) (src : String) (dest : String) (start : ℕ) (count : ℕ)
  | fslmaths (fsldir : String) (src : String) (mul : String) (div : ℕ) (dest : String)
  | pulse (args : PulseArgs)
  | echoNoise (line : String) (out : String)
  | possumX (possumdir : String) (out : String) (numproc : String) (proctime : String)
      (segs : String)
  | echoSetup (out : String)
deriving DecidableEq

/-- The pulse command of the epi/ge branch (lines 183-194 of the source). -/
def pulseArgs (p : Params) (g : Geo) : PulseArgs :=
  let FSLDIR := dget p "FSLDIR" "/usr/local/fsl"
  let plus := dget p "plus" "+"
  { possumdir := dget p "POSSUMDIR" FSLDIR
    out := dget p "out" "./simdir"
    seqtype := dget p "seqtype" "epi"
    te := dget p "te" "0.03"
    tr := dget p "tr" "3"
    trslc := if pyLower (dget p "seqtype" "epi") = "epi"
             then some (dget p "trslc" "0.12") else none
    nx := dget p "outsize_nx" "64"
    ny := dget p "outsize_ny" "64"
    numslc := dget p "outsize_nz" "1"
    dx := dget p "outsize_dx" "4.0"
    dy := dget p "outsize_dy" "4.0"
    slcthk := g.newpixdim3
    numvol := dget p "numvol" "1"
    bw := dget p "bw" "100000"
    readdir := dget p "readgrad" "x" ++ plus
    phasedir := dget p "phencode" "y" ++ plus
    slcdir := dget p "slcselect" "z" ++ plus
    maxG := dget p "maxG" "0.055"
    riseT := dget p "riseT" "0.00022" }

/-- Stage 1: create the output directory. -/
def setupStage (p : Params) : List Cmd :=
  [ .mkdirP (dget p "out" "./simdir") ]

/-- Stage 2-3: create the brain reference volume and register the input. -/
def refStage (p : Params) (g : Geo) : List Cmd :=
  let FSLDIR := dget p "FSLDIR" "/usr/local/fsl"
  let out := dget p "out" "./simdir"
  [ .fslcreatehd FSLDIR g.newdim1 g.newdim2 g.newdim3 g.inNt
      g.newpixdim1 g.newpixdim2 g.newpixdim3 g.pixdim4 (out ++ "/brainref"),
    .flirt FSLDIR (dget p "obvol" "") (out ++ "/brainref") (out ++ "/brain") ]

/-- Copy of the MR parameter file, gated on a non-empty path. -/
def mrparStage (p : Params) : List Cmd :=
  let out := dget p "out" "./simdir"
  if dget p "mrpar" "" ≠ "" then [ .cp (dget p "mrpar" "") (out ++ "/MRpar") ] else []

/-- Copy of the slice-profile file, gated on a non-empty path. -/
def slcprofStage (p : Params) : List Cmd :=
  let out := dget p "out" "./simdir"
  if dget p "slcprof" "" ≠ "" then [ .cp (dget p "slcprof" "") (out ++ "/slcprof") ] else []

/-- Copy of the motion file, gated on a non-empty path. -/
def motStage (p : Params) : List Cmd :=
  let out := dget p "out" "./simdir"
  if dget p "mot" "" ≠ "" then [ .cp (dget p "mot" "") (out ++ "/motion") ] else []

/-- Registration of the activation image, gated on a non-empty path. -/
def act1Stage (p : Params) : List Cmd :=
  let FSLDIR := dget p "FSLDIR" "/usr/local/fsl"
  let out := dget p "out" "./simdir"
  if dget p "act1" "" ≠ "" then
    [ .flirt FSLDIR (dget p "act1" "") (out ++ "/brainref") (out ++ "/T2") ]
  else []

/-- Copy of the activation timecourse, gated on a non-empty path. -/
def act2Stage (p : Params) : List Cmd :=
  let out := dget p "out" "./simdir"
  if dget p "act2" "" ≠ "" then [ .cp (dget p "act2" "") (out ++ "/T2timecourse") ] else []

/-- B0 field processing: register, extract one slice, optionally scale. -/
def b0Stage (p : Params) : List Cmd :=
  let FSLDIR := dget p "FSLDIR" "/usr/local/fsl"
  let out := dget p "out" "./simdir"
  if dget p "b0f" "" ≠ "" then
    [ .flirt FSLDIR (dget p "b0f" "") (out ++ "/brainref") (out ++ "/b0newref"),
      .fslroi FSLDIR (out ++ "/b0newref") (out ++ "/b0z_dz.nii.gz") 0 1 ]
    ++ (if pyLower (dget p "b0units" "ppm") = "ppm" then
          [ .fslmaths FSLDIR (out ++ "/b0z_dz.nii.gz")
              (dget p "b0fieldstrength" "1.5") 1000000 (out ++ "/b0z_dz.nii.gz") ]
        else [])
  else []

/-- Pulse-sequence branch: one pulse command for epi/ge, otherwise the
seven-file copy of the custom pulse family when a path is given. -/
def pulseStage (p : Params) (g : Geo) : List Cmd :=
  let st := pyLower (dget p "seqtype" "epi")
  if st = "epi" ∨ st = "ge" then [ .pulse (pulseArgs p g) ]
  else
    let cuspulse := dget p "cuspulse" ""
    let out := dget p "out" "./simdir"
    if cuspulse ≠ "" then
      [ .cp cuspulse (out ++ "/pulse"),
        .cp (cuspulse ++ ".info") (out ++ "/pulse.info"),
        .cp (cuspulse ++ ".readme") (out ++ "/pulse.readme"),
        .cp (cuspulse ++ ".posx") (out ++ "/pulse.posx"),
        .cp (cuspulse ++ ".posy") (out ++ "/pulse.posy"),
        .cp (cuspulse ++ ".posz") (out ++ "/pulse.posz"),
        .cp (cuspulse ++ ".com") (out ++ "/pulse.com") ]
    else []

/-- Noise file: a single echo into the noise file when noise_yn is "1". -/
def noiseStage (p : Params) : List Cmd :=
  if dget p "noise_yn" "0" = "1" then
    [ .echoNoise
        (if pyLower (dget p "noiseunits" "sigma") = "snr"
         then "snr " ++ dget p "noisesnr" "10"
         else "sigma " ++ dget p "noisesigma" "0")
        (dget p "out" "./simdir") ]
  else []

/-- Final stage: the possumX invocation and the setup-file marker echo. -/
def finalStage (p : Params) : List Cmd :=
  let FSLDIR := dget p "FSLDIR" "/usr/local/fsl"
  let POSSUMDIR := dget p "POSSUMDIR" FSLDIR
  let out := dget p "out" "./simdir"
  [ .possumX POSSUMDIR out (dget p "numproc" "1") (dget p "proctime" "0")
      (dget p "segs" "10000"),
    .echoSetup out ]

/-- The full command list of generate_shell_commands, given the geometry. -/
def buildCmds (p : Params) (g : Geo) : List Cmd :=
  setupStage p ++ refStage p g ++ mrparStage p ++ slcprofStage p ++ motStage p
    ++ act1Stage p ++ act2Stage p ++ b0Stage p ++ pulseStage p g
    ++ noiseStage p ++ finalStage p

/-- generate_shell_commands from fsftosh.py: compute the brain reference
geometry, then build the command list.  none where the Python code raises. -/
def generate_shell_commands (p : Params) : Option (List Cmd) :=
  (compute_brain_ref p).map (buildCmds p)

/-- Recognizer for the noise-file write command. -/
def Cmd.isNoise : Cmd → Bool
  | .echoNoise _ _ => true
  | _ => false

/-- The value of the last line of the list that parses to the given key. -/
def lastVal : List String → String → Option String
  | [], _ => none
  | l :: ls, k =>
      match lastVal ls k with
      | some v => some v
      | none =>
          match parseLine l with
          | some kv => if kv.1 = k then some kv.2 else none
          | none => none

/-- The stage of the command list gated by the given optional file-path key. -/
def optStage (e : String) (p : Params) : List Cmd :=
  if e = "mrpar" then mrparStage p
  else if e = "slcprof" then slcprofStage p
  else if e = "mot" then motStage p
  else if e = "act1" then act1Stage p
  else if e = "act2" then act2Stage p
  else if e = "b0f" then b0Stage p
  else []

/-- The stages of the command list that precede the stage gated by the given
optional file-path key. -/
def prefixStages (e : String) (p : Params) (g : Geo) : List Cmd :=
  if e = "mrpar" then setupStage p ++ refStage p g
  else if e = "slcprof" then setupStage p ++ refStage p g ++ mrparStage p
  else if e = "mot" then setupStage p ++ refStage p g ++ mrparStage p ++ slcprofStage p
  else if e = "act1" then
    setupStage p ++ refStage p g ++ mrparStage p ++ slcprofStage p ++ motStage p
  else if e = "act2" then
    setupStage p ++ refStage p g ++ mrparStage p ++ slcprofStage p ++ motStage p
      ++ act1Stage p
  else if e = "b0f" then
    setupStage p ++ refStage p g ++ mrparStage p ++ slcprofStage p ++ motStage p
      ++ act1Stage p ++ act2Stage p
  else []

/-- The stages of the command list that follow the stage gated by the given
optional file-path key. -/
def suffixStages (e : String) (p : Params) (g : Geo) : List Cmd :=
  if e = "mrpar" then
    slcprofStage p ++ motStage p ++ act1Stage p ++ act2Stage p ++ b0Stage p
      ++ pulseStage p g ++ noiseStage p ++ finalStage p
  else if e = "slcprof" then
    motStage p ++ act1Stage p ++ act2Stage p ++ b0Stage p
      ++ pulseStage p g ++ noiseStage p ++ finalStage p
  else if e = "mot" then
    act1Stage p ++ act2Stage p ++ b0Stage p ++ pulseStage p g ++ noiseStage p
      ++ finalStage p
  else if e = "act1" then
    act2Stage p ++ b0Stage p ++ pulseStage p g ++ noiseStage p ++ finalStage p
  else if e = "act2" then
    b0Stage p ++ pulseStage p g ++ noiseStage p ++ finalStage p
  else if e = "b0f" then
    pulseStage p g ++ noiseStage p ++ finalStage p
  else []

/-! ### Concrete sample inputs used in witnesses and counterexamples -/

/-- The concrete scenario of the specification: input dims (64,64,30), input
voxel sizes 3.0, output size (64,64,30), output voxel size (3.0,3.0,4.0),
sampling factor 1, slice-select z. -/
def c2params : Params :=
  [("inNx", "64"), ("inNy", "64"), ("inNz", "30"),
   ("vcX", "3.0"), ("vcY", "3.0"), ("vcZ", "3.0"),
   ("outsize_nx", "64"), ("outsize_ny", "64"), ("outsize_nz", "30"),
   ("outsize_dx", "3.0"), ("outsize_dy", "3.0"), ("outsize_dz", "4.0"),
   ("slcsampfactor", "1"), ("slcselect", "z")]

/-- A sample parameter set selecting the x axis (written capitalized). -/
def c1wparams : Params :=
  [("inNx", "10"), ("vcX", "2.0"), ("outsize_dx", "4.0"),
   ("slcsampfactor", "2"), ("slcselect", "X")]

/-- An epi parameter set selecting the x axis, on which the recomputed x
voxel size (2.0) differs from the pass-through z voxel size (3.0). -/
def c3params : Params :=
  [("seqtype", "epi"), ("slcselect", "x"), ("inNx", "64"),
   ("vcX", "3.0"), ("vcZ", "3.0"), ("outsize_dx", "2.0")]

/-- The geometry computed on c3params. -/
def c3geo : Geo := ⟨96, 0, 0, "1", 2, 1, 3, "1"⟩

/-- The geometry computed on c2params. -/
def c2geo : Geo := ⟨64, 64, 22, "1", 3, 3, 4, "1"⟩

/-- A parameter set turning noise on in SNR units. -/
def c4params : Params := [("noise_yn", "1"), ("noiseunits", "SNR"), ("noisesnr", "12")]

/-- A parameter set with the noise flag off. -/
def c4offparams : Params := [("noise_yn", "0")]

/-- A parameter set with sequence type ge. -/
def c5geparams : Params := [("seqtype", "ge")]

/-- A parameter set with a custom sequence type and a custom pulse path. -/
def c6params : Params := [("seqtype", "custom"), ("cuspulse", "/p/mypulse")]

/-- A parameter set with an MR-parameter file present. -/
def c7params : Params := [("mrpar", "/data/MRpar"), ("out", "/tmp/sim")]

/-- A parameter set with a field file present and default (ppm) units. -/
def c8params : Params := [("b0f", "/data/b0.nii.gz")]

/-- A parameter set with a field file present and non-ppm units. -/
def c8hzparams : Params := [("b0f", "/data/b0.nii.gz"), ("b0units", "Hz")]

/-! ### Evaluation of compute_brain_ref -/

/-- Full evaluation of compute_brain_ref, by case on the selected axis, given
that all numeric parameters parse and the selected-axis divisions are not by
zero. -/
theorem compute_brain_ref_eval (p : Params)
    (nx ny nz vx vy vz dx dy dz sf : ℚ) (onx ony onz : ℤ)
    (hnx : parseFloat (dget p "inNx" "0") = some nx)
    (hny : parseFloat (dget p "inNy" "0") = some ny)
    (hnz : parseFloat (dget p "inNz" "0") = some nz)
    (hvx : parseFloat (dget p "vcX" "1") = some vx)
    (hvy : parseFloat (dget p "vcY" "1") = some vy)
    (hvz : parseFloat (dget p "vcZ" "1") = some vz)
    (honx : getIntOr p "outsize_nx" nx = some onx)
    (hony : getIntOr p "outsize_ny" ny = some ony)
    (honz : getIntOr p "outsize_nz" nz = some onz)
    (hdx : parseFloat (dget p "outsize_dx" "1") = some dx)
    (hdy : parseFloat (dget p "outsize_dy" "1") = some dy)
    (hdz : parseFloat (dget p "outsize_dz" "1") = some dz)
    (hsf : parseFloat (dget p "slcsampfactor" "1") = some sf) :
    (pyLower (dget p "slcselect" "z") = "x" → sf ≠ 0 → dx / sf ≠ 0 →
      compute_brain_ref p = some ⟨((pyRound (nx * vx / (dx / sf)) : ℤ) : ℚ), ny, nz,
        dget p "inNt" "1", dx / sf, vy, vz, dget p "inNt" "1"⟩) ∧
    (pyLower (dget p "slcselect" "z") = "y" → sf ≠ 0 → dy / sf ≠ 0 →
      compute_brain_ref p = some ⟨nx, ((pyRound (ny * vy / (dy / sf)) : ℤ) : ℚ), nz,
        dget p "inNt" "1", vx, dy / sf, vz, dget p "inNt" "1"⟩) ∧
    (pyLower (dget p "slcselect" "z") ≠ "x" → pyLower (dget p "slcselect" "z") ≠ "y" →
      sf ≠ 0 → dz / sf ≠ 0 →
      compute_brain_ref p = some ⟨nx, ny, ((pyRound (nz * vz / (dz / sf)) : ℤ) : ℚ),
        dget p "inNt" "1", vx, vy, dz / sf, dget p "inNt" "1"⟩) := by
  refine ⟨?_, ?_, ?_⟩
  · intro hsel hs hnp
    simp only [compute_brain_ref, selectAxis, hnx, hny, hnz, hvx, hvy, hvz, honx, hony,
      honz, hdx, hdy, hdz, hsf, Option.bind_eq_bind, Option.some_bind]
    rw [if_pos hsel, if_neg hs, if_neg hnp]
  · intro hsel hs hnp
    have hx : ¬ pyLower (dget p "slcselect" "z") = "x" := by
      rw [hsel]; intro h; exact absurd h (by decide)
    simp only [compute_brain_ref, selectAxis, hnx, hny, hnz, hvx, hvy, hvz, honx, hony,
      honz, hdx, hdy, hdz, hsf, Option.bind_eq_bind, Option.some_bind]
    rw [if_neg hx, if_pos hsel, if_neg hs, if_neg hnp]
  · intro hx hy hs hnp
    simp only [compute_brain_ref, selectAxis, hnx, hny, hnz, hvx, hvy, hvz, honx, hony,
      honz, hdx, hdy, hdz, hsf, Option.bind_eq_bind, Option.some_bind]
    rw [if_neg hx, if_neg hy, if_neg hs, if_neg hnp]

/-- Membership in a list gated by a condition implies membership in the list. -/
theorem mem_ite_nil {c : Prop} [Decidable c] {l : List Cmd} {x : Cmd}
    (h : x ∈ if c then l else []) : x ∈ l := by
  by_cases hc : c
  · rwa [if_pos hc] at h
  · rw [if_neg hc] at h; cases h

section ConcreteEval

attribute [local semireducible] Rat.mul Rat.inv Rat.add Rat.sub Rat.ofScientific

/-- C1: For every parameter set, the geometry computation recomputes exactly
one of the three spatial axes, the one named by the slice-selection parameter
compared case-insensitively with any value other than x or y treated as z,
setting that axis voxel size to output voxel over sampling factor and its
dimension to round of input dim times input voxel over the new voxel; the
other two axes keep the input dimensions and voxel sizes exactly. -/
theorem C1_exactly_one_axis_recomputed (p : Params)
    (nx ny nz vx vy vz dx dy dz sf : ℚ) (onx ony onz : ℤ)
    (hnx : parseFloat (dget p "inNx" "0") = some nx)
    (hny : parseFloat (dget p "inNy" "0") = some ny)
    (hnz : parseFloat (dget p "inNz" "0") = some nz)
    (hvx : parseFloat (dget p "vcX" "1") = some vx)
    (hvy : parseFloat (dget p "vcY" "1") = some vy)
    (hvz : parseFloat (dget p "vcZ" "1") = some vz)
    (honx : getIntOr p "outsize_nx" nx = some onx)
    (hony : getIntOr p "outsize_ny" ny = some ony)
    (honz : getIntOr p "outsize_nz" nz = some onz)
    (hdx : parseFloat (dget p "outsize_dx" "1") = some dx)
    (hdy : parseFloat (dget p "outsize_dy" "1") = some dy)
    (hdz : parseFloat (dget p "outsize_dz" "1") = some dz)
    (hsf : parseFloat (dget p "slcsampfactor" "1") = some sf) :
    (pyLower (dget p "slcselect" "z") = "x" → sf ≠ 0 → dx / sf ≠ 0 →
      compute_brain_ref p = some ⟨((pyRound (nx * vx / (dx / sf)) : ℤ) : ℚ), ny, nz,
        dget p "inNt" "1", dx / sf, vy, vz, dget p "inNt" "1"⟩) ∧
    (pyLower (dget p "slcselect" "z") = "y" → sf ≠ 0 → dy / sf ≠ 0 →
      compute_brain_ref p = some ⟨nx, ((pyRound (ny * vy / (dy / sf)) : ℤ) : ℚ), nz,
        dget p "inNt" "1", vx, dy / sf, vz, dget p "inNt" "1"⟩) ∧
    (pyLower (dget p "slcselect" "z") ≠ "x" → pyLower (dget p "slcselect" "z") ≠ "y" →
      sf ≠ 0 → dz / sf ≠ 0 →
      compute_brain_ref p = some ⟨nx, ny, ((pyRound (nz * vz / (dz / sf)) : ℤ) : ℚ),
        dget p "inNt" "1", vx, vy, dz / sf, dget p "inNt" "1"⟩) :=
  compute_brain_ref_eval p nx ny nz vx vy vz dx dy dz sf onx ony onz
    hnx hny hnz hvx hvy hvz honx hony honz hdx hdy hdz hsf

/-- Witness for C1 at a concrete parameter set selecting the x axis with a
capitalized slice-selection value. -/
theorem C1_exactly_one_axis_recomputed_witness :
    compute_brain_ref c1wparams = some ⟨10, 0, 0, "1", 2, 1, 1, "1"⟩ := by
  have h := (C1_exactly_one_axis_recomputed c1wparams 10 0 0 2 1 1 4 1 1 2 10 0 0
    (by decide) (by decide) (by decide) (by decide) (by decide) (by decide)
    (by decide) (by decide) (by decide) (by decide) (by decide) (by decide)
    (by decide)).1 (by decide) (by decide) (by decide)
  rw [h]
  decide

/-- Evaluation of the geometry on the concrete specification scenario. -/
theorem c2_geo : compute_brain_ref c2params = some ⟨64, 64, 22, "1", 3, 3, 4, "1"⟩ := by
  have h := (compute_brain_ref_eval c2params 64 64 30 3 3 3 3 3 4 1 64 64 30
    (by decide) (by decide) (by decide) (by decide) (by decide) (by decide)
    (by decide) (by decide) (by decide) (by decide) (by decide) (by decide)
    (by decide)).2.2 (by decide) (by decide) (by decide) (by decide)
  rw [h]
  decide

/-- C2 counterexample: on the concrete scenario the code returns new dim3 =
22, not 23, because the Python round builtin rounds the tie 22.5 to the even
integer 22. -/
theorem C2_round_counterexample :
    (compute_brain_ref c2params).map Geo.newdim3 = some 22 ∧
    (compute_brain_ref c2params).map Geo.newdim3 ≠ some 23 := by
  rw [c2_geo]
  exact ⟨rfl, by decide⟩

/-- C2 as amended: on the concrete scenario the geometry computation returns
new pixdim3 = 4.0 and new dim3 = 22 (round-half-to-even of 22.5). -/
theorem C2_concrete_scenario :
    (compute_brain_ref c2params).map Geo.newpixdim3 = some 4 ∧
    (compute_brain_ref c2params).map Geo.newdim3 = some 22 := by
  rw [c2_geo]
  exact ⟨rfl, rfl⟩

/-- C3 as amended: the slice-thickness argument of every generated pulse
command equals newpixdim3, the z-axis voxel size of the geometry result,
regardless of the slice-selection axis. -/
theorem C3_slcthk_always_newpixdim3 :
    ∀ (p : Params) (g : Geo) (args : PulseArgs),
      Cmd.pulse args ∈ buildCmds p g → args.slcthk = g.newpixdim3 := by
  intro p g args h
  simp only [buildCmds, List.mem_append] at h
  rcases h with (((((((((h | h) | h) | h) | h) | h) | h) | h) | h) | h) | h
  · simp [setupStage] at h
  · simp [refStage] at h
  · simp only [mrparStage] at h
    have h2 := mem_ite_nil h
    simp at h2
  · simp only [slcprofStage] at h
    have h2 := mem_ite_nil h
    simp at h2
  · simp only [motStage] at h
    have h2 := mem_ite_nil h
    simp at h2
  · simp only [act1Stage] at h
    have h2 := mem_ite_nil h
    simp at h2
  · simp only [act2Stage] at h
    have h2 := mem_ite_nil h
    simp at h2
  · simp only [b0Stage] at h
    have h2 := mem_ite_nil h
    rcases List.mem_append.mp h2 with h3 | h3
    · simp at h3
    · have h4 := mem_ite_nil h3
      simp at h4
  · simp only [pulseStage] at h
    split at h
    · simp only [List.mem_singleton] at h
      cases Cmd.pulse.inj h
      rfl
    · have h2 := mem_ite_nil h
      simp at h2
  · simp only [noiseStage] at h
    have h2 := mem_ite_nil h
    simp at h2
  · simp [finalStage] at h

/-- Witness for the amended C3 on the concrete specification scenario. -/
theorem C3_slcthk_always_newpixdim3_witness :
    (pulseArgs c2params ⟨64, 64, 22, "1", 3, 3, 4, "1"⟩).slcthk = (4 : ℚ) := by
  have h := C3_slcthk_always_newpixdim3 c2params ⟨64, 64, 22, "1", 3, 3, 4, "1"⟩
    (pulseArgs c2params ⟨64, 64, 22, "1", 3, 3, 4, "1"⟩) (by decide)
  rw [h]

/-- Evaluation of the geometry on the x-selecting epi sample. -/
theorem c3_geo : compute_brain_ref c3params = some c3geo := by
  have h := (compute_brain_ref_eval c3params 64 0 0 3 1 3 2 1 1 1 64 0 0
    (by decide) (by decide) (by decide) (by decide) (by decide) (by decide)
    (by decide) (by decide) (by decide) (by decide) (by decide) (by decide)
    (by decide)).1 (by decide) (by decide) (by decide)
  rw [h]
  decide

/-- C3 counterexample: with slice-select x the pulse command of the generated
sequence carries slcthk = 3, the z-axis voxel size, while the recomputed
x-axis voxel size is 2. -/
theorem C3_counterexample :
    generate_shell_commands c3params = some (buildCmds c3params c3geo) ∧
    Cmd.pulse (pulseArgs c3params c3geo) ∈ buildCmds c3params c3geo ∧
    (pulseArgs c3params c3geo).slcthk = 3 ∧ c3geo.newpixdim1 = 2 ∧ (3 : ℚ) ≠ 2 := by
  refine ⟨?_, ?_, rfl, rfl, by decide⟩
  · simp only [generate_shell_commands, c3_geo, Option.map_some']
  · decide

/-! ### Noise stage counting helpers -/

theorem countP_isNoise_setup (p : Params) : (setupStage p).countP Cmd.isNoise = 0 := rfl

theorem countP_isNoise_ref (p : Params) (g : Geo) :
    (refStage p g).countP Cmd.isNoise = 0 := rfl

theorem countP_isNoise_mrpar (p : Params) : (mrparStage p).countP Cmd.isNoise = 0 := by
  simp only [mrparStage]
  split <;> rfl

theorem countP_isNoise_slcprof (p : Params) : (slcprofStage p).countP Cmd.isNoise = 0 := by
  simp only [slcprofStage]
  split <;> rfl

theorem countP_isNoise_mot (p : Params) : (motStage p).countP Cmd.isNoise = 0 := by
  simp only [motStage]
  split <;> rfl

theorem countP_isNoise_act1 (p : Params) : (act1Stage p).countP Cmd.isNoise = 0 := by
  simp only [act1Stage]
  split <;> rfl

theorem countP_isNoise_act2 (p : Params) : (act2Stage p).countP Cmd.isNoise = 0 := by
  simp only [act2Stage]
  split <;> rfl

theorem countP_isNoise_b0 (p : Params) : (b0Stage p).countP Cmd.isNoise = 0 := by
  simp only [b0Stage]
  split
  · rw [List.countP_append]
    split <;> rfl
  · rfl

theorem countP_isNoise_pulse (p : Params) (g : Geo) :
    (pulseStage p g).countP Cmd.isNoise = 0 := by
  simp only [pulseStage]
  split
  · rfl
  · split <;> rfl

theorem countP_isNoise_final (p : Params) : (finalStage p).countP Cmd.isNoise = 0 := rfl

/-- The noise-write count of the whole command list is that of its noise
stage alone. -/
theorem countP_isNoise_buildCmds (p : Params) (g : Geo) :
    (buildCmds p g).countP Cmd.isNoise = (noiseStage p).countP Cmd.isNoise := by
  simp only [buildCmds, List.countP_append, countP_isNoise_setup, countP_isNoise_ref,
    countP_isNoise_mrpar, countP_isNoise_slcprof, countP_isNoise_mot, countP_isNoise_act1,
    countP_isNoise_act2, countP_isNoise_b0, countP_isNoise_pulse, countP_isNoise_final,
    Nat.zero_add, Nat.add_zero]

/-- C4: the command list contains exactly one noise-file write if and only if
the noise flag is the string 1; the written line is snr value for snr units
(case-insensitively) and sigma value otherwise; for any other flag value no
noise-file write is emitted at all. -/
theorem C4_noise_gating (p : Params) (g : Geo) :
    (dget p "noise_yn" "0" = "1" →
      (buildCmds p g).countP Cmd.isNoise = 1 ∧
      noiseStage p = [ .echoNoise
        (if pyLower (dget p "noiseunits" "sigma") = "snr"
         then "snr " ++ dget p "noisesnr" "10"
         else "sigma " ++ dget p "noisesigma" "0")
        (dget p "out" "./simdir") ]) ∧
    (dget p "noise_yn" "0" ≠ "1" →
      (buildCmds p g).countP Cmd.isNoise = 0) := by
  constructor
  · intro h1
    have hn : noiseStage p = [ .echoNoise
        (if pyLower (dget p "noiseunits" "sigma") = "snr"
         then "snr " ++ dget p "noisesnr" "10"
         else "sigma " ++ dget p "noisesigma" "0")
        (dget p "out" "./simdir") ] := by
      rw [noiseStage, if_pos h1]
    refine ⟨?_, hn⟩
    rw [countP_isNoise_buildCmds, hn]
    split <;> rfl
  · intro h1
    have hn : noiseStage p = [] := by
      rw [noiseStage, if_neg h1]
    rw [countP_isNoise_buildCmds, hn]
    rfl

/-- Witness for C4: noise on in SNR units gives one snr line; flag 0 gives
no noise write. -/
theorem C4_noise_gating_witness :
    (buildCmds c4params c2geo).countP Cmd.isNoise = 1 ∧
    noiseStage c4params = [ .echoNoise ("snr " ++ "12") "./simdir" ] ∧
    (buildCmds c4offparams c2geo).countP Cmd.isNoise = 0 := by
  have h1 := (C4_noise_gating c4params c2geo).1 (by decide)
  have h2 := (C4_noise_gating c4offparams c2geo).2 (by decide)
  refine ⟨h1.1, ?_, h2⟩
  rw [h1.2]
  decide

/-- C5: the generated pulse command carries the trslc argument exactly for
sequence type epi (case-insensitively); for sequence type ge it is absent. -/
theorem C5_trslc_epi_only (p : Params) (g : Geo) :
    (pyLower (dget p "seqtype" "epi") = "epi" →
      Cmd.pulse (pulseArgs p g) ∈ buildCmds p g ∧
      (pulseArgs p g).trslc = some (dget p "trslc" "0.12")) ∧
    (pyLower (dget p "seqtype" "epi") = "ge" →
      Cmd.pulse (pulseArgs p g) ∈ buildCmds p g ∧
      (pulseArgs p g).trslc = none) := by
  constructor
  · intro h
    have hp : pulseStage p g = [Cmd.pulse (pulseArgs p g)] := by
      simp only [pulseStage]
      rw [if_pos (Or.inl h)]
    constructor
    · simp [buildCmds, hp]
    · simp only [pulseArgs]
      rw [if_pos h]
  · intro h
    have hp : pulseStage p g = [Cmd.pulse (pulseArgs p g)] := by
      simp only [pulseStage]
      rw [if_pos (Or.inr h)]
    constructor
    · simp [buildCmds, hp]
    · simp only [pulseArgs]
      rw [if_neg (by rw [h]; decide)]

/-- Witness for C5: the default (epi) scenario carries trslc 0.12 and the ge
scenario carries none. -/
theorem C5_trslc_epi_only_witness :
    (pulseArgs c2params c2geo).trslc = some "0.12" ∧
    (pulseArgs c5geparams c2geo).trslc = none := by
  constructor
  · have h := ((C5_trslc_epi_only c2params c2geo).1 (by decide)).2
    rw [h]
    decide
  · exact ((C5_trslc_epi_only c5geparams c2geo).2 (by decide)).2

/-- C6: for a custom sequence type, a non-empty custom-pulse path emits
exactly the seven pulse-family copies as one unconditional block, and an
empty path emits no pulse-family copy at all. -/
theorem C6_custom_pulse_family (p : Params) (g : Geo)
    (hx : pyLower (dget p "seqtype" "epi") ≠ "epi")
    (hy : pyLower (dget p "seqtype" "epi") ≠ "ge") :
    (dget p "cuspulse" "" ≠ "" →
      pulseStage p g =
        [ .cp (dget p "cuspulse" "") (dget p "out" "./simdir" ++ "/pulse"),
          .cp (dget p "cuspulse" "" ++ ".info") (dget p "out" "./simdir" ++ "/pulse.info"),
          .cp (dget p "cuspulse" "" ++ ".readme") (dget p "out" "./simdir" ++ "/pulse.readme"),
          .cp (dget p "cuspulse" "" ++ ".posx") (dget p "out" "./simdir" ++ "/pulse.posx"),
          .cp (dget p "cuspulse" "" ++ ".posy") (dget p "out" "./simdir" ++ "/pulse.posy"),
          .cp (dget p "cuspulse" "" ++ ".posz") (dget p "out" "./simdir" ++ "/pulse.posz"),
          .cp (dget p "cuspulse" "" ++ ".com") (dget p "out" "./simdir" ++ "/pulse.com") ] ∧
      (pulseStage p g).length = 7) ∧
    (dget p "cuspulse" "" = "" → pulseStage p g = []) ∧
    buildCmds p g =
      (setupStage p ++ refStage p g ++ mrparStage p ++ slcprofStage p ++ motStage p
        ++ act1Stage p ++ act2Stage p ++ b0Stage p) ++ pulseStage p g
        ++ (noiseStage p ++ finalStage p) := by
  have hcond : ¬ (pyLower (dget p "seqtype" "epi") = "epi" ∨
      pyLower (dget p "seqtype" "epi") = "ge") := by
    rintro (h | h)
    · exact hx h
    · exact hy h
  refine ⟨?_, ?_, ?_⟩
  · intro hc
    have hp : pulseStage p g =
        [ .cp (dget p "cuspulse" "") (dget p "out" "./simdir" ++ "/pulse"),
          .cp (dget p "cuspulse" "" ++ ".info") (dget p "out" "./simdir" ++ "/pulse.info"),
          .cp (dget p "cuspulse" "" ++ ".readme") (dget p "out" "./simdir" ++ "/pulse.readme"),
          .cp (dget p "cuspulse" "" ++ ".posx") (dget p "out" "./simdir" ++ "/pulse.posx"),
          .cp (dget p "cuspulse" "" ++ ".posy") (dget p "out" "./simdir" ++ "/pulse.posy"),
          .cp (dget p "cuspulse" "" ++ ".posz") (dget p "out" "./simdir" ++ "/pulse.posz"),
          .cp (dget p "cuspulse" "" ++ ".com") (dget p "out" "./simdir" ++ "/pulse.com") ] := by
      simp only [pulseStage]
      rw [if_neg hcond, if_pos hc]
    exact ⟨hp, by rw [hp]; rfl⟩
  · intro hc
    simp only [pulseStage]
    rw [if_neg hcond, if_neg (fun hh => hh hc)]
  · simp only [buildCmds, List.append_assoc]

/-- Witness for C6 on a concrete custom-pulse parameter set. -/
theorem C6_custom_pulse_family_witness :
    pulseStage c6params c2geo =
      [ .cp "/p/mypulse" "./simdir/pulse",
        .cp "/p/mypulse.info" "./simdir/pulse.info",
        .cp "/p/mypulse.readme" "./simdir/pulse.readme",
        .cp "/p/mypulse.posx" "./simdir/pulse.posx",
        .cp "/p/mypulse.posy" "./simdir/pulse.posy",
        .cp "/p/mypulse.posz" "./simdir/pulse.posz",
        .cp "/p/mypulse.com" "./simdir/pulse.com" ] ∧
    (pulseStage c6params c2geo).length = 7 := by
  have h := (C6_custom_pulse_family c6params c2geo (by decide) (by decide)).1 (by decide)
  refine ⟨?_, h.2⟩
  rw [h.1]
  decide

/-- Lookup after a dictionary update. -/
theorem dlookup_insertKV (m : Params) (k v k' : String) :
    dlookup (insertKV m k v) k' = if k' = k then some v else dlookup m k' := by
  induction m with
  | nil =>
      by_cases h : k = k'
      · simp [insertKV, dlookup, h]
      · simp [insertKV, dlookup, h, Ne.symm h]
  | cons kv0 rest ih =>
      obtain ⟨k0, v0⟩ := kv0
      by_cases h0 : k0 = k
      · subst h0
        by_cases h : k0 = k'
        · simp [insertKV, dlookup, h]
        · simp [insertKV, dlookup, h, Ne.symm h]
      · by_cases h : k0 = k'
        · subst h
          simp [insertKV, dlookup, h0, ih, fun hh : k0 = k => h0 hh]
        · simp [insertKV, dlookup, h0, h, ih]

/-- C7: emptying any one of the six optional file-path parameters removes
exactly the commands of its stage from the generated sequence: the geometry
is unchanged, the emptied stage emits nothing, and the command list splits
into the same prefix and suffix with only that stage removed. -/
theorem C7_optional_param_removal (e : String)
    (he : e ∈ ["mrpar", "slcprof", "mot", "act1", "act2", "b0f"]) (p : Params) (g : Geo) :
    compute_brain_ref (insertKV p e "") = compute_brain_ref p ∧
    optStage e (insertKV p e "") = [] ∧
    buildCmds p g = prefixStages e p g ++ optStage e p ++ suffixStages e p g ∧
    buildCmds (insertKV p e "") g = prefixStages e p g ++ suffixStages e p g := by
  fin_cases he <;> refine ⟨?_, ?_, ?_, ?_⟩ <;>
    simp only [compute_brain_ref, getIntOr, buildCmds, prefixStages, suffixStages, optStage,
      setupStage, refStage, mrparStage, slcprofStage, motStage, act1Stage, act2Stage,
      b0Stage, pulseStage, pulseArgs, noiseStage, finalStage, dget, dlookup_insertKV,
      String.reduceEq, if_false, ite_false, if_true, ite_true, Option.getD_some,
      List.append_assoc, List.append_nil, ne_eq, not_true_eq_false]

/-- Witness for C7: removing the MR-parameter path from a concrete set. -/
theorem C7_optional_param_removal_witness :
    compute_brain_ref (insertKV c7params "mrpar" "") = compute_brain_ref c7params ∧
    optStage "mrpar" (insertKV c7params "mrpar" "") = [] ∧
    buildCmds c7params c2geo =
      prefixStages "mrpar" c7params c2geo ++ optStage "mrpar" c7params
        ++ suffixStages "mrpar" c7params c2geo ∧
    buildCmds (insertKV c7params "mrpar" "") c2geo =
      prefixStages "mrpar" c7params c2geo ++ suffixStages "mrpar" c7params c2geo :=
  C7_optional_param_removal "mrpar" (by decide) c7params c2geo

/-- C8: with a field file present the builder emits its registration against
the reference volume, a one-slice extraction starting at slice 0 with count
1, and, exactly when the units parameter (default ppm) is ppm
case-insensitively, an in-place scaling by the field strength divided by
1000000; with other units no scaling command is emitted. -/
theorem C8_field_processing (p : Params) (g : Geo)
    (hb : dget p "b0f" "" ≠ "") :
    (pyLower (dget p "b0units" "ppm") = "ppm" →
      b0Stage p =
        [ .flirt (dget p "FSLDIR" "/usr/local/fsl") (dget p "b0f" "")
            (dget p "out" "./simdir" ++ "/brainref") (dget p "out" "./simdir" ++ "/b0newref"),
          .fslroi (dget p "FSLDIR" "/usr/local/fsl") (dget p "out" "./simdir" ++ "/b0newref")
            (dget p "out" "./simdir" ++ "/b0z_dz.nii.gz") 0 1,
          .fslmaths (dget p "FSLDIR" "/usr/local/fsl")
            (dget p "out" "./simdir" ++ "/b0z_dz.nii.gz") (dget p "b0fieldstrength" "1.5")
            1000000 (dget p "out" "./simdir" ++ "/b0z_dz.nii.gz") ]) ∧
    (pyLower (dget p "b0units" "ppm") ≠ "ppm" →
      b0Stage p =
        [ .flirt (dget p "FSLDIR" "/usr/local/fsl") (dget p "b0f" "")
            (dget p "out" "./simdir" ++ "/brainref") (dget p "out" "./simdir" ++ "/b0newref"),
          .fslroi (dget p "FSLDIR" "/usr/local/fsl") (dget p "out" "./simdir" ++ "/b0newref")
            (dget p "out" "./simdir" ++ "/b0z_dz.nii.gz") 0 1 ]) ∧
    buildCmds p g =
      (setupStage p ++ refStage p g ++ mrparStage p ++ slcprofStage p ++ motStage p
        ++ act1Stage p ++ act2Stage p) ++ b0Stage p
        ++ (pulseStage p g ++ noiseStage p ++ finalStage p) := by
  refine ⟨?_, ?_, ?_⟩
  · intro hu
    simp only [b0Stage]
    rw [if_pos hb, if_pos hu]
    rfl
  · intro hu
    simp only [b0Stage]
    rw [if_pos hb, if_neg hu]
    rfl
  · simp only [buildCmds, List.append_assoc]

/-- Witness for C8 at concrete field-file parameter sets: default units give
the three commands with the scaling, explicit non-ppm units give two. -/
theorem C8_field_processing_witness :
    b0Stage c8params =
      [ .flirt "/usr/local/fsl" "/data/b0.nii.gz" "./simdir/brainref" "./simdir/b0newref",
        .fslroi "/usr/local/fsl" "./simdir/b0newref" "./simdir/b0z_dz.nii.gz" 0 1,
        .fslmaths "/usr/local/fsl" "./simdir/b0z_dz.nii.gz" "1.5" 1000000
          "./simdir/b0z_dz.nii.gz" ] ∧
    b0Stage c8hzparams =
      [ .flirt "/usr/local/fsl" "/data/b0.nii.gz" "./simdir/brainref" "./simdir/b0newref",
        .fslroi "/usr/local/fsl" "./simdir/b0newref" "./simdir/b0z_dz.nii.gz" 0 1 ] := by
  constructor
  · have h := (C8_field_processing c8params c2geo (by decide)).1 (by decide)
    rw [h]
    decide
  · have h := (C8_field_processing c8hzparams c2geo (by decide)).2.1 (by decide)
    rw [h]
    decide


/-! ### Parser lemmas -/

theorem dropPrefixL_append (l r : List Char) : dropPrefixL l (l ++ r) = some r := by
  induction l with
  | nil => simp [dropPrefixL]
  | cons c cs ih => simp [dropPrefixL, ih]

theorem takeUntil_append (stop : Char) (a : List Char) (r : List Char) (h : stop ∉ a) :
    takeUntil stop (a ++ stop :: r) = some (a, r) := by
  induction a with
  | nil => simp [takeUntil]
  | cons c cs ih =>
      have hc : ¬ c = stop := by
        rintro rfl
        exact h (List.mem_cons_self c cs)
      have hrec := ih (fun hm => h (List.mem_cons_of_mem c hm))
      simp [takeUntil, hc, hrec]

theorem takeWhile_all_stop (f : Char → Bool) (a : List Char) (c : Char) (r : List Char)
    (ha : ∀ x ∈ a, f x = true) (hc : f c = false) :
    (a ++ c :: r).takeWhile f = a := by
  induction a with
  | nil => simp [List.takeWhile_cons, hc]
  | cons x xs ih =>
      have hx : f x = true := ha x (List.mem_cons_self x xs)
      have hrec := ih (fun y hy => ha y (List.mem_cons_of_mem x hy))
      simp [List.takeWhile_cons, hx, hrec]

theorem dropWhile_all_stop (f : Char → Bool) (a : List Char) (c : Char) (r : List Char)
    (ha : ∀ x ∈ a, f x = true) (hc : f c = false) :
    (a ++ c :: r).dropWhile f = c :: r := by
  induction a with
  | nil => simp [List.dropWhile_cons, hc]
  | cons x xs ih =>
      have hx : f x = true := ha x (List.mem_cons_self x xs)
      have hrec := ih (fun y hy => ha y (List.mem_cons_of_mem x hy))
      simp [List.dropWhile_cons, hx, hrec]

theorem span_all_stop (f : Char → Bool) (a : List Char) (c : Char) (r : List Char)
    (ha : ∀ x ∈ a, f x = true) (hc : f c = false) :
    (a ++ c :: r).span f = (a, c :: r) := by
  rw [List.span_eq_take_drop, takeWhile_all_stop f a c r ha hc,
    dropWhile_all_stop f a c r ha hc]

/-- The pattern matcher succeeds on any well-formed pattern instance. -/
theorem matchAt_build (key ws value rest : List Char)
    (hk : ')' ∉ key) (hw : ws ≠ []) (hws : ∀ c ∈ ws, isPySpace c = true)
    (hv : '"' ∉ value) :
    matchAt (fsfLit ++ (key ++ ')' :: (ws ++ '"' :: (value ++ '"' :: rest)))) =
      some (String.mk key, String.mk value) := by
  obtain ⟨w0, ws', rfl⟩ : ∃ w0 ws', ws = w0 :: ws' := by
    cases ws with
    | nil => exact absurd rfl hw
    | cons w0 ws' => exact ⟨w0, ws', rfl⟩
  rw [matchAt, dropPrefixL_append]
  simp only [Option.some_bind]
  rw [takeUntil_append ')' key _ hk]
  simp only [Option.some_bind]
  rw [span_all_stop isPySpace (w0 :: ws') '"' (value ++ '"' :: rest) hws (by decide)]
  simp only [List.isEmpty_cons, Bool.false_eq_true, if_false]
  simp only [if_true]
  rw [takeUntil_append '"' value rest hv]
  simp only [Option.some_bind]

theorem dropPrefixL_some (l : List Char) :
    ∀ cs r, dropPrefixL l cs = some r → cs = l ++ r := by
  induction l with
  | nil =>
      intro cs r h
      simp only [dropPrefixL] at h
      cases h
      simp
  | cons p ps ih =>
      intro cs r h
      cases cs with
      | nil => simp [dropPrefixL] at h
      | cons c cs' =>
          simp only [dropPrefixL] at h
          by_cases hc : c = p
          · rw [if_pos hc] at h
            subst hc
            simp [ih cs' r h]
          · rw [if_neg hc] at h
            cases h

theorem takeUntil_some (stop : Char) (cs : List Char) :
    ∀ a r, takeUntil stop cs = some (a, r) → cs = a ++ stop :: r ∧ stop ∉ a := by
  induction cs with
  | nil =>
      intro a r h
      simp [takeUntil] at h
  | cons c cs ih =>
      intro a r h
      simp only [takeUntil] at h
      by_cases hc : c = stop
      · rw [if_pos hc] at h
        subst hc
        cases h
        simp
      · rw [if_neg hc] at h
        cases htu : takeUntil stop cs with
        | none => rw [htu] at h; cases h
        | some pr =>
            rw [htu] at h
            simp only [Option.map_some'] at h
            cases h
            obtain ⟨h1, h2⟩ := ih pr.1 pr.2 htu
            constructor
            · simp [h1]
            · simp [List.mem_cons, h2, Ne.symm hc]

/-- Inversion of the pattern matcher: a successful match decomposes the
input into the pattern shape, with the groups returned raw. -/
theorem matchAt_some (cs : List Char) (k v : String) (h : matchAt cs = some (k, v)) :
    ∃ key ws value rest,
      cs = fsfLit ++ (key ++ ')' :: (ws ++ '"' :: (value ++ '"' :: rest))) ∧
      ')' ∉ key ∧ ws ≠ [] ∧ (∀ c ∈ ws, isPySpace c = true) ∧ '"' ∉ value ∧
      k = String.mk key ∧ v = String.mk value := by
  simp only [matchAt] at h
  cases hd : dropPrefixL fsfLit cs with
  | none => rw [hd] at h; cases h
  | some r1 =>
      rw [hd] at h
      simp only [Option.some_bind] at h
      cases ht : takeUntil ')' r1 with
      | none => rw [ht] at h; cases h
      | some kr =>
          rw [ht] at h
          simp only [Option.some_bind] at h
          cases hsp : kr.2.span isPySpace with
          | mk ws rest2 =>
              rw [hsp] at h
              split at h
              · cases h
              · next hni =>
                split at h
                · next c2 r3 hr2 =>
                  split at h
                  · next hq =>
                    cases htv : takeUntil '"' r3 with
                    | none => rw [htv] at h; cases h
                    | some vr =>
                        rw [htv] at h
                        simp only [Option.some_bind] at h
                        cases h
                        obtain ⟨hr1, hknot⟩ := takeUntil_some ')' r1 kr.1 kr.2 ht
                        obtain ⟨hr3, hvnot⟩ := takeUntil_some '"' r3 vr.1 vr.2 htv
                        have hr2x : rest2 = c2 :: r3 := hr2
                        have hcs := dropPrefixL_some fsfLit cs r1 hd
                        have hkr2 : kr.2 = ws ++ rest2 := by
                          have := List.takeWhile_append_dropWhile (p := isPySpace) (l := kr.2)
                          rw [List.span_eq_take_drop] at hsp
                          cases hsp
                          simp [this]
                        have hwsall : ∀ c ∈ ws, isPySpace c = true := by
                          intro c hcmem
                          rw [List.span_eq_take_drop] at hsp
                          cases hsp
                          exact List.mem_takeWhile_imp hcmem
                        have hnix : ¬ ws.isEmpty = true := hni
                        have hwsne : ws ≠ [] := by
                          intro hh
                          rw [hh] at hnix
                          exact hnix rfl
                        subst hq
                        refine ⟨kr.1, ws, vr.1, vr.2, ?_, hknot, hwsne, hwsall, hvnot, rfl, rfl⟩
                        rw [hcs, hr1, hkr2, hr2x, hr3]
                  · cases h
                · cases h

theorem reSearch_of_matchAt (cs : List Char) (kv : String × String) (hne : cs ≠ [])
    (h : matchAt cs = some kv) : reSearch cs = some kv := by
  cases cs with
  | nil => exact absurd rfl hne
  | cons c cs' => simp [reSearch, h]

theorem reSearch_some (cs : List Char) (kv : String × String) (h : reSearch cs = some kv) :
    ∃ pre suf, cs = pre ++ suf ∧ matchAt suf = some kv := by
  induction cs with
  | nil => simp [reSearch] at h
  | cons c cs ih =>
      simp only [reSearch] at h
      cases hm : matchAt (c :: cs) with
      | some kv0 =>
          simp only [hm] at h
          cases h
          exact ⟨[], c :: cs, rfl, hm⟩
      | none =>
          simp only [hm] at h
          obtain ⟨pre, suf, h1, h2⟩ := ih h
          exact ⟨c :: pre, suf, by simp [h1], h2⟩

/-- Any well-formed pattern instance parses to the stripped groups. -/
theorem parseLine_build (key ws value rest : String)
    (hk : ')' ∉ key.data) (hw : ws ≠ "") (hws : ∀ c ∈ ws.data, isPySpace c = true)
    (hv : '"' ∉ value.data) :
    parseLine ("set entries($w," ++ key ++ ")" ++ ws ++ "\"" ++ value ++ "\"" ++ rest) =
      some (pyStrip key, pyStrip value) := by
  have e1 : ("set entries($w," : String).data = fsfLit := rfl
  have e2 : ((")" : String)).data = [')'] := rfl
  have e3 : (("\"" : String)).data = ['"'] := rfl
  have hdata : ("set entries($w," ++ key ++ ")" ++ ws ++ "\"" ++ value ++ "\"" ++ rest).data
      = fsfLit ++ (key.data ++ ')' :: (ws.data ++ '"' :: (value.data ++ '"' :: rest.data))) := by
    simp only [String.data_append, e1, e2, e3, List.append_assoc, List.singleton_append,
      List.cons_append, List.nil_append]
    rfl
  have hwd : ws.data ≠ [] := fun hh => hw (String.ext (show ws.data = ("" : String).data from hh))
  rw [parseLine, hdata,
    reSearch_of_matchAt _ _ (by simp [fsfLit])
      (matchAt_build key.data ws.data value.data rest.data hk hwd hws hv)]
  rfl

/-- A successful parse of a line decomposes it into the pattern shape, and
the stored pair is the stripped groups. -/
theorem parseLine_some (line : String) (k v : String) (h : parseLine line = some (k, v)) :
    ∃ pre key ws value rest : List Char,
      line.data = pre ++ (fsfLit ++ (key ++ ')' :: (ws ++ '"' :: (value ++ '"' :: rest)))) ∧
      ')' ∉ key ∧ ws ≠ [] ∧ (∀ c ∈ ws, isPySpace c = true) ∧ '"' ∉ value ∧
      k = pyStrip (String.mk key) ∧ v = pyStrip (String.mk value) := by
  simp only [parseLine] at h
  cases hr : reSearch line.data with
  | none => rw [hr] at h; cases h
  | some kv0 =>
      rw [hr] at h
      simp only [Option.map_some'] at h
      cases h
      obtain ⟨pre, suf, h1, h2⟩ := reSearch_some line.data kv0 hr
      obtain ⟨key, ws, value, rest, hsuf, hks, hwne, hwsp, hvne, hkk, hvv⟩ :=
        matchAt_some suf kv0.1 kv0.2 h2
      refine ⟨pre, key, ws, value, rest, ?_, hks, hwne, hwsp, hvne, ?_, ?_⟩
      · rw [h1, hsuf]
      · rw [hkk]
      · rw [hvv]

/-- C9 as amended: a key-value pair is contributed exactly by the lines
matching the pattern, the stored value being the quoted text with
surrounding whitespace stripped (no other transformation, no escape
processing); every other line is silently ignored and adds nothing. -/
theorem C9_pattern_and_strip :
    (∀ key ws value rest : String, ')' ∉ key.data → ws ≠ "" →
      (∀ c ∈ ws.data, isPySpace c = true) → '"' ∉ value.data →
      parseLine ("set entries($w," ++ key ++ ")" ++ ws ++ "\"" ++ value ++ "\"" ++ rest) =
        some (pyStrip key, pyStrip value)) ∧
    (∀ line k v : String, parseLine line = some (k, v) →
      ∃ pre key ws value rest : List Char,
        line.data = pre ++ (fsfLit ++ (key ++ ')' :: (ws ++ '"' :: (value ++ '"' :: rest)))) ∧
        ')' ∉ key ∧ ws ≠ [] ∧ (∀ c ∈ ws, isPySpace c = true) ∧ '"' ∉ value ∧
        k = pyStrip (String.mk key) ∧ v = pyStrip (String.mk value)) ∧
    (∀ (m : Params) (line : String), parseLine line = none → parseStep m line = m) := by
  refine ⟨parseLine_build, parseLine_some, ?_⟩
  intro m line h
  simp [parseStep, h]

/-- Witness for C9 on a concrete line whose quoted value carries padding. -/
theorem C9_pattern_and_strip_witness :
    parseLine "set entries($w,K) \" v \"" = some ("K", "v") := by
  have h := C9_pattern_and_strip.1 "K" " " " v " "" (by decide) (by decide) (by decide)
    (by decide)
  have e1 : ("set entries($w," ++ "K" ++ ")" ++ " " ++ "\"" ++ " v " ++ "\"" ++ "" : String)
      = "set entries($w,K) \" v \"" := by decide
  rw [e1] at h
  rw [h]
  decide

set_option maxRecDepth 4000 in
/-- C9 counterexample: the stored value is not the literal quoted text; the
surrounding whitespace of the group is stripped before storing. -/
theorem C9_strip_counterexample :
    parse_fsf ["set entries($w,K) \" v \""] = [("K", "v")] ∧ ("v" : String) ≠ " v " := by
  constructor
  · decide
  · decide

/-- Unfolding of the parse fold: a lookup in the final dictionary is the
value of the last contributing line for that key, else the lookup in the
starting dictionary. -/
theorem dlookup_parse_fold (lines : List String) :
    ∀ (m : Params) (k : String),
      dlookup (List.foldl parseStep m lines) k =
        match lastVal lines k with
        | some v => some v
        | none => dlookup m k := by
  induction lines with
  | nil => intro m k; simp [lastVal, List.foldl]
  | cons l ls ih =>
      intro m k
      simp only [List.foldl_cons]
      rw [ih (parseStep m l) k]
      cases hlv : lastVal ls k with
      | some v => simp [lastVal, hlv]
      | none =>
          cases hpl : parseLine l with
          | none => simp [lastVal, hlv, hpl, parseStep]
          | some kv =>
              simp only [lastVal, hlv, hpl, parseStep]
              rw [dlookup_insertKV]
              by_cases hk : k = kv.1
              · simp [hk]
              · rw [if_neg hk, if_neg (fun hh : kv.1 = k => hk hh.symm)]

/-- C10: a key appearing on several matching lines is bound to the value of
the last such line, and the generated command sequence depends on the
parameter dictionary only through its lookups, so overwritten earlier
occurrences have no effect on it. -/
theorem C10_last_occurrence_wins :
    (∀ (lines : List String) (k d : String),
      dget (parse_fsf lines) k d = (lastVal lines k).getD d) ∧
    (∀ m1 m2 : Params, (∀ k, dlookup m1 k = dlookup m2 k) →
      generate_shell_commands m1 = generate_shell_commands m2) := by
  constructor
  · intro lines k d
    rw [dget, parse_fsf, dlookup_parse_fold lines [] k]
    cases lastVal lines k <;> simp [dlookup]
  · intro m1 m2 h
    have hc : compute_brain_ref m1 = compute_brain_ref m2 := by
      simp only [compute_brain_ref, getIntOr, dget, h]
    have hb : buildCmds m1 = buildCmds m2 := by
      funext g
      simp only [buildCmds, setupStage, refStage, mrparStage, slcprofStage, motStage,
        act1Stage, act2Stage, b0Stage, pulseStage, pulseArgs, noiseStage, finalStage,
        dget, h]
    rw [generate_shell_commands, generate_shell_commands, hc, hb]

set_option maxRecDepth 8000 in
/-- Witness for C10: a duplicated key takes the later value, and two
dictionaries with identical lookups generate identical command lists. -/
theorem C10_last_occurrence_wins_witness :
    dget (parse_fsf ["set entries($w,a) \"1\"", "junk", "set entries($w,a) \"2\""]) "a" ""
      = "2" ∧
    generate_shell_commands [("mrpar", "f"), ("segs", "9")] =
      generate_shell_commands [("segs", "9"), ("mrpar", "f")] := by
  constructor
  · have h := C10_last_occurrence_wins.1
      ["set entries($w,a) \"1\"", "junk", "set entries($w,a) \"2\""] "a" ""
    rw [h]
    decide
  · refine C10_last_occurrence_wins.2 _ _ ?_
    intro k
    by_cases h1 : ("mrpar" : String) = k <;> by_cases h2 : ("segs" : String) = k
    · exact absurd (h1.trans h2.symm) (by decide)
    · simp [dlookup, h1, h2]
    · simp [dlookup, h1, h2]
    · simp [dlookup, h1, h2]

end ConcreteEval

end FS
